import Mathlib

/-!
Verification of the real-time audio streaming client (frontend/src/App.tsx).

The development shallowly embeds the client code:
* the capture-side float→PCM16 conversion (startAudioStreaming, lines 222-229),
* the playback-side PCM16→float conversion (playAudioChunk, lines 31-34),
* the fade-in/fade-out envelope (playAudioChunk, lines 36-46),
* the playback scheduler state (playAudioChunk / processAudioQueue, lines 24-97),
* the WebSocket message dispatch (handleWebSocketMessage, lines 100-157),
* session teardown (endCall, lines 241-250).

Audio sample values and device times are modelled as rationals (JavaScript
numbers are a finite subset); machine-integer storage into an Int16Array is
modelled by truncation toward zero, which is what the ECMAScript ToInt16
conversion performs on values already in the signed 16-bit range.
-/

/-- Truncation toward zero of a rational, as performed by the ECMAScript
number→integer conversion used when storing into an Int16Array. -/
def truncQ (x : ℚ) : ℤ :=
  if 0 ≤ x then Int.floor x else Int.ceil x

/-- Embedding of the capture-side sample conversion (App.tsx lines 226-229):
`const s = Math.max(-1, Math.min(1, inputData[i]));
 int16Data[i] = s < 0 ? s * 0x8000 : s * 0x7FFF;`. -/
def floatToPCM16Sample (x : ℚ) : ℤ :=
  let s := max (-1) (min 1 x)
  if s < 0 then truncQ (s * 32768) else truncQ (s * 32767)

/-- Capture-side conversion of a whole window of samples. -/
def floatToPCM16 (xs : List ℚ) : List ℤ :=
  xs.map floatToPCM16Sample

/-- Embedding of the playback-side sample conversion (App.tsx line 33):
`channelData[i] = audioData[i] / 32768.0;`. -/
def pcm16ToFloatSample (v : ℤ) : ℚ :=
  (v : ℚ) / 32768

/-- Playback-side conversion of a whole frame. -/
def pcm16ToFloat (vs : List ℤ) : List ℚ :=
  vs.map pcm16ToFloatSample

lemma clamp_lower (x : ℚ) : (-1 : ℚ) ≤ max (-1) (min 1 x) := le_max_left _ _

lemma clamp_upper (x : ℚ) : max (-1) (min 1 x) ≤ 1 :=
  max_le (by norm_num) (min_le_left _ _)

lemma floatToPCM16Sample_range (x : ℚ) :
    -32768 ≤ floatToPCM16Sample x ∧ floatToPCM16Sample x ≤ 32767 := by
  unfold floatToPCM16Sample
  set s := max (-1) (min 1 x) with hs
  have h1 : (-1 : ℚ) ≤ s := clamp_lower x
  have h2 : s ≤ 1 := clamp_upper x
  by_cases hneg : s < 0
  · simp only [hneg, if_true]
    have hmul : s * 32768 < 0 := mul_neg_of_neg_of_pos hneg (by norm_num)
    have htr : truncQ (s * 32768) = Int.ceil (s * 32768) := by
      unfold truncQ
      rw [if_neg (not_le.mpr hmul)]
    rw [htr]
    constructor
    · have : ((-32768 : ℤ) : ℚ) ≤ s * 32768 := by
        push_cast
        nlinarith
      calc (-32768 : ℤ) = Int.ceil ((-32768 : ℤ) : ℚ) := by
            rw [Int.ceil_intCast]
        _ ≤ Int.ceil (s * 32768) := Int.ceil_le_ceil this
    · have hc : Int.ceil (s * 32768) ≤ (0 : ℤ) := by
        rw [Int.ceil_le]
        exact_mod_cast le_of_lt hmul
      omega
  · simp only [hneg, if_false]
    have hpos : (0 : ℚ) ≤ s := not_lt.mp hneg
    have hmul : (0 : ℚ) ≤ s * 32767 := by positivity
    have htr : truncQ (s * 32767) = Int.floor (s * 32767) := by
      unfold truncQ
      rw [if_pos hmul]
    rw [htr]
    constructor
    · have h0 : (0 : ℤ) ≤ Int.floor (s * 32767) := by
        rw [Int.le_floor]
        exact_mod_cast hmul
      omega
    · have : s * 32767 ≤ ((32767 : ℤ) : ℚ) := by
        push_cast
        nlinarith
      calc Int.floor (s * 32767) ≤ Int.floor ((32767 : ℤ) : ℚ) := Int.floor_le_floor this
        _ = 32767 := Int.floor_intCast _

/-- C3: every integer produced by the capture-side float-to-PCM16 conversion
(clamp each sample to the interval from -1 to 1, then scale negative values by
32768 and non-negative values by 32767) lies in the signed 16-bit range from
-32768 to 32767, for every finite input sample. -/
theorem floatToPCM16_range (xs : List ℚ) (v : ℤ) (hv : v ∈ floatToPCM16 xs) :
    -32768 ≤ v ∧ v ≤ 32767 := by
  obtain ⟨x, -, rfl⟩ := List.mem_map.mp hv
  exact floatToPCM16Sample_range x

/-- Witness for C3 at the concrete input window [2]: the sample 2 is clamped
to 1 and encodes to 32767, which is in range. -/
theorem floatToPCM16_range_witness :
    ((32767 : ℤ) ∈ floatToPCM16 [2]) ∧
      (-32768 ≤ (32767 : ℤ) ∧ (32767 : ℤ) ≤ 32767) := by
  have hv : (32767 : ℤ) ∈ floatToPCM16 [2] := by
    norm_num [floatToPCM16, floatToPCM16Sample, truncQ]
  exact ⟨hv, floatToPCM16_range [2] 32767 hv⟩

/-- Counterexample to C4 as stated: at the in-range input 65535/65536, the
round trip pcm16ToFloat (floatToPCM16 x) misses x by 3/65536, which exceeds
one least-significant-bit step 1/32768 = 2/65536. -/
theorem roundTrip_counterexample :
    (-1 : ℚ) ≤ 65535/65536 ∧ (65535/65536 : ℚ) ≤ 1 ∧
      1/32768 < |pcm16ToFloatSample (floatToPCM16Sample (65535/65536)) - 65535/65536| := by
  norm_num [floatToPCM16Sample, pcm16ToFloatSample, truncQ]
  exact lt_abs.mpr (Or.inl (by norm_num))

/-- C4 (amended): for every sample in the interval from -1 to 1, the round
trip pcm16ToFloat (floatToPCM16 x) reproduces x up to an absolute error
strictly below two least-significant-bit steps (2/32768); the one-step bound
claimed by the spec holds on the negative side but fails for some positive
samples, because the encoder scales non-negative values by 32767 while the
decoder divides by 32768. -/
theorem roundTrip (x : ℚ) (h1 : -1 ≤ x) (h2 : x ≤ 1) :
    |pcm16ToFloatSample (floatToPCM16Sample x) - x| < 2/32768 := by
  have hclamp : max (-1) (min 1 x) = x := by
    rw [min_eq_right h2, max_eq_right h1]
  simp only [floatToPCM16Sample, hclamp]
  by_cases hx : x < 0
  · have hm : x * 32768 < 0 := mul_neg_of_neg_of_pos hx (by norm_num)
    rw [if_pos hx]
    unfold truncQ
    rw [if_neg (not_le.mpr hm)]
    unfold pcm16ToFloatSample
    have hc1 : x * 32768 ≤ ((Int.ceil (x * 32768) : ℤ) : ℚ) := Int.le_ceil _
    have hc2 : ((Int.ceil (x * 32768) : ℤ) : ℚ) < x * 32768 + 1 := Int.ceil_lt_add_one _
    rw [abs_sub_lt_iff]
    constructor <;> linarith
  · have hx0 : (0 : ℚ) ≤ x := not_lt.mp hx
    have hm : (0 : ℚ) ≤ x * 32767 := by positivity
    rw [if_neg hx]
    unfold truncQ
    rw [if_pos hm]
    unfold pcm16ToFloatSample
    have hc1 : ((Int.floor (x * 32767) : ℤ) : ℚ) ≤ x * 32767 := Int.floor_le _
    have hc2 : x * 32767 - 1 < ((Int.floor (x * 32767) : ℤ) : ℚ) := Int.sub_one_lt_floor _
    rw [abs_sub_lt_iff]
    constructor <;> linarith

/-- Witness for C4 at the concrete sample 1/2. -/
theorem roundTrip_witness :
    ((-1 : ℚ) ≤ 1/2 ∧ (1/2 : ℚ) ≤ 1) ∧
      |pcm16ToFloatSample (floatToPCM16Sample (1/2)) - 1/2| < 2/32768 :=
  ⟨⟨by norm_num, by norm_num⟩, roundTrip (1/2) (by norm_num) (by norm_num)⟩

/-- In-place multiply of the list element at index j by c, modelling
`channelData[idx] *= factor` (out-of-range writes leave the list unchanged,
matching the guarded array accesses). -/
def mulAt (j : ℕ) (c : ℚ) (l : List ℚ) : List ℚ :=
  l.set j (l.getD j 0 * c)

/-- One iteration of the fade loop (App.tsx lines 38-46): multiply index i by
i/120 (fade-in), then, when the fade-out index n-1-i is in range, multiply it
by i/120 as well (n is the frame length, fixed before the loop runs). -/
def fadeStep (n : ℕ) (a : List ℚ) (i : ℕ) : List ℚ :=
  let a1 := mulAt i ((i : ℚ) / 120) a
  if n - 1 - i < n then mulAt (n - 1 - i) ((i : ℚ) / 120) a1 else a1

/-- Embedding of the whole fade loop of playAudioChunk: the loop runs i from 0
while `i < fadeLength && i < audioData.length`, with
`fadeLength = Math.floor(24000 * 0.005) = 120`. -/
def applyFade (xs : List ℚ) : List ℚ :=
  (List.range (min 120 xs.length)).foldl (fadeStep xs.length) xs

lemma mulAt_length (j : ℕ) (c : ℚ) (l : List ℚ) : (mulAt j c l).length = l.length := by
  simp [mulAt]

lemma getD_mulAt (j k : ℕ) (c : ℚ) (l : List ℚ) :
    (mulAt j c l).getD k 0 =
      if k = j ∧ j < l.length then l.getD k 0 * c else l.getD k 0 := by
  unfold mulAt
  rcases Nat.lt_or_ge j l.length with hj | hj
  · by_cases hk : k = j
    · subst hk
      simp [List.getD_eq_getElem?_getD, List.getElem?_set_eq_of_lt _ hj, hj]
    · simp [List.getD_eq_getElem?_getD, List.getElem?_set_ne (Ne.symm hk), hk]
  · rw [List.set_eq_of_length_le hj]
    rw [if_neg]
    rintro ⟨-, h⟩
    omega

lemma fadeStep_length (n : ℕ) (a : List ℚ) (i : ℕ) : (fadeStep n a i).length = a.length := by
  unfold fadeStep
  split <;> simp [mulAt_length]

lemma foldl_fadeStep_length (n : ℕ) (is : List ℕ) (a : List ℚ) :
    (is.foldl (fadeStep n) a).length = a.length := by
  induction is generalizing a with
  | nil => rfl
  | cons i rest ih => rw [List.foldl_cons, ih, fadeStep_length]

lemma fadeFold_getD (len k : ℕ) (a : List ℚ) (ha : a.length = len) :
    ∀ m, m ≤ min 120 len →
      ((List.range m).foldl (fadeStep len) a).getD k 0 =
        a.getD k 0 * (if k < m then (k : ℚ) / 120 else 1) *
          (if k < len ∧ len - 1 - k < m then ((len - 1 - k : ℕ) : ℚ) / 120 else 1) := by
  intro m
  induction m with
  | zero => intro _; simp
  | succ m ih =>
    intro hm
    have hm' : m ≤ min 120 len := by omega
    have hmlen : m < len := by omega
    have hlen0 : 0 < len := by omega
    rw [List.range_succ, List.foldl_append, List.foldl_cons, List.foldl_nil]
    set b := (List.range m).foldl (fadeStep len) a with hb
    have hblen : b.length = len := by rw [hb, foldl_fadeStep_length, ha]
    have hguard : len - 1 - m < len := by omega
    have hstep : (fadeStep len b m).getD k 0 =
        b.getD k 0 * (if k = m then (m : ℚ) / 120 else 1) *
          (if k = len - 1 - m then (m : ℚ) / 120 else 1) := by
      unfold fadeStep
      rw [if_pos hguard, getD_mulAt, getD_mulAt, mulAt_length, hblen]
      by_cases h1 : k = m
      · by_cases h2 : k = len - 1 - m
        · rw [if_pos ⟨h2, hguard⟩, if_pos ⟨h1, by omega⟩, if_pos h1, if_pos h2]
        · rw [if_neg (by tauto), if_pos ⟨h1, by omega⟩, if_pos h1, if_neg h2]
          ring
      · by_cases h2 : k = len - 1 - m
        · rw [if_pos ⟨h2, hguard⟩, if_neg (by tauto), if_neg h1, if_pos h2]
          ring
        · rw [if_neg (by tauto), if_neg (by tauto), if_neg h1, if_neg h2]
          ring
    rw [hstep, ih hm']
    have hfin : (if k < m + 1 then (k : ℚ) / 120 else 1) =
        (if k < m then (k : ℚ) / 120 else 1) * (if k = m then (m : ℚ) / 120 else 1) := by
      by_cases h : k = m
      · subst h
        simp [Nat.lt_irrefl, Nat.lt_succ_self]
      · by_cases h2 : k < m
        · have h3 : k < m + 1 := by omega
          simp [h, h2, h3]
        · have h3 : ¬ k < m + 1 := by omega
          simp [h, h2, h3]
    have hfout : (if k < len ∧ len - 1 - k < m + 1 then ((len - 1 - k : ℕ) : ℚ) / 120 else 1) =
        (if k < len ∧ len - 1 - k < m then ((len - 1 - k : ℕ) : ℚ) / 120 else 1) *
          (if k = len - 1 - m then (m : ℚ) / 120 else 1) := by
      by_cases h : k = len - 1 - m
      · have hklen : k < len := by omega
        have hc : len - 1 - k = m := by omega
        rw [hc, if_pos ⟨hklen, by omega⟩, if_neg (by omega), if_pos h]
        ring
      · have hiff : (k < len ∧ len - 1 - k < m + 1) ↔ (k < len ∧ len - 1 - k < m) := by
          omega
        simp only [hiff, if_neg h, mul_one]
    rw [hfin, hfout]
    ring

/-- C9: the playback fade envelope applies a linear fade-in over the first 120
samples (factor k/120 at index k) and a linear fade-out over the last 120
samples (factor (n-1-k)/120 at index k of an n-sample frame), 120 samples
being 5 ms at 24 kHz, and leaves every sample outside those two windows
unchanged. -/
theorem fadeEnvelope (xs : List ℚ) (k : ℕ) (hk : k < xs.length) :
    (120 ≤ k → k + 120 < xs.length → (applyFade xs).getD k 0 = xs.getD k 0) ∧
    (k < 120 → k + 120 < xs.length →
      (applyFade xs).getD k 0 = xs.getD k 0 * ((k : ℚ) / 120)) ∧
    (120 ≤ k → xs.length ≤ k + 120 →
      (applyFade xs).getD k 0 = xs.getD k 0 * (((xs.length - 1 - k : ℕ) : ℚ) / 120)) := by
  have H := fadeFold_getD xs.length k xs rfl (min 120 xs.length) le_rfl
  unfold applyFade
  refine ⟨?_, ?_, ?_⟩
  · intro h1 h2
    rw [H, if_neg (by omega), if_neg (by omega)]
    ring
  · intro h1 h2
    rw [H, if_pos (by omega), if_neg (by omega)]
    ring
  · intro h1 h2
    rw [H, if_neg (by omega), if_pos ⟨hk, by omega⟩]
    ring

/-- Witness for C9 on a 300-sample frame of ones: sample 150 lies outside both
fade windows and is unchanged. -/
theorem fadeEnvelope_witness :
    (150 < (List.replicate 300 (1:ℚ)).length) ∧
      (applyFade (List.replicate 300 (1:ℚ))).getD 150 0 = (List.replicate 300 (1:ℚ)).getD 150 0 :=
  ⟨by norm_num [List.length_replicate],
    (fadeEnvelope (List.replicate 300 1) 150 (by norm_num [List.length_replicate])).1
      (by norm_num) (by norm_num [List.length_replicate])⟩

/-- Connection states of the client (App.tsx line 4). -/
inductive ConnectionState
  | disconnected
  | connecting
  | connected
deriving DecidableEq, Repr

/-- Conversation (turn) states of the client (App.tsx line 5). -/
inductive ConversationState
  | idle
  | listening
  | speaking
  | thinking
deriving DecidableEq, Repr

/-- Client state: the React state hooks and refs of the App component, plus
the observable playback schedule. `hasCtx` models whether audioContextRef is
set; `wsRef` whether wsRef holds a socket and `wsOpen` whether that socket is
open; `queue` holds the sample counts of the queued frames (scheduling only
depends on frame length); `cursor` is nextPlayTimeRef in seconds; `scheduled`
records every (startTime, length) passed to `source.start`; `timeouts` records
the device-clock fire times of pending completion checks (a setTimeout with
delay d, created at device time t, fires at device time t + d). -/
structure AppState where
  connection : ConnectionState
  conv : ConversationState
  wsRef : Bool
  wsOpen : Bool
  hasCtx : Bool
  queue : List ℕ
  playing : Bool
  cursor : ℚ
  scheduled : List (ℚ × ℕ)
  timeouts : List ℚ
deriving DecidableEq, Repr

/-- Initial component state: useState/useRef initial values (App.tsx 8-14). -/
def initApp : AppState :=
  ⟨.disconnected, .idle, false, false, false, [], false, 0, [], []⟩

/-- Embedding of initAudioContext (App.tsx 17-21). -/
def initAudioContext (s : AppState) : AppState :=
  { s with hasCtx := true }

/-- Embedding of playAudioChunk (App.tsx 24-60) restricted to its scheduling
effect: `startTime = max(currentTime, nextPlayTimeRef.current)`;
`source.start(startTime)`; `nextPlayTimeRef.current = startTime +
audioBuffer.duration - 0.001` where the buffer duration of a frame of len
samples at 24 kHz is len/24000 seconds. The per-sample decode and fade
(modelled by pcm16ToFloat and applyFade) do not affect scheduling. -/
def playAudioChunk (t : ℚ) (len : ℕ) (s : AppState) : AppState :=
  if s.hasCtx = false then s else
  let startTime := max t s.cursor
  { s with cursor := startTime + (len : ℚ) / 24000 - 1/1000,
           scheduled := s.scheduled ++ [(startTime, len)] }

/-- The while loop of processAudioQueue (App.tsx 76-82): shift each queued
chunk in order and hand it to playAudioChunk. -/
def drainList (t : ℚ) (fs : List ℕ) (s : AppState) : AppState :=
  match fs with
  | [] => s
  | f :: rest => drainList t rest (playAudioChunk t f s)

/-- Embedding of processAudioQueue (App.tsx 63-97) at device time t: return
unless an audio context exists and the queue is non-empty; when not already
playing, set the playing flag, enter the speaking state and reset the play
cursor to the current device time; drain the queue through playAudioChunk;
finally, if `timeUntilDone = (cursor - currentTime)` is positive, schedule a
completion check after `timeUntilDone + 100ms`, i.e. firing at device time
`t + (cursor - t) + 1/10`. -/
def processAudioQueue (t : ℚ) (s : AppState) : AppState :=
  if s.hasCtx = false ∨ s.queue = [] then s else
  let s1 := if s.playing = false then
      { s with playing := true, conv := .speaking, cursor := t } else s
  let s2 := drainList t s1.queue { s1 with queue := [] }
  if 0 < s2.cursor - t then
    { s2 with timeouts := s2.timeouts ++ [t + (s2.cursor - t) + 1/10] }
  else s2

/-- Body of the deferred completion check (App.tsx 89-95): if the queue is
still empty when the timeout fires, clear the playing flag and go idle. -/
def timeoutCheck (s : AppState) : AppState :=
  if s.queue = [] then { s with playing := false, conv := .idle } else s

/-- The inbound WebSocket messages handled by handleWebSocketMessage
(App.tsx 107-153), tagged by their `type` field: audioDelta f is a
response.audio.delta carrying a frame of f samples; audioDeltaAbsent is a
response.audio.delta whose delta field is missing; unknownTag is any message
whose type matches no case; malformed is a message whose JSON parse throws. -/
inductive Msg
  | sessionCreated
  | sessionUpdated
  | audioDelta (frame : ℕ)
  | audioDeltaAbsent
  | audioDone
  | speechStarted
  | speechStopped
  | transcriptDelta
  | responseDone
  | errorMsg
  | unknownTag
  | malformed
deriving DecidableEq, Repr

/-- Embedding of handleWebSocketMessage (App.tsx 100-157) at device time t.
Only three cases change state: response.audio.delta pushes the decoded frame
and runs processAudioQueue; input_audio_buffer.speech_started sets the
listening state; input_audio_buffer.speech_stopped sets the thinking state.
All other cases, the default case, and the JSON-parse catch block only log. -/
def handleWebSocketMessage (t : ℚ) (m : Msg) (s : AppState) : AppState :=
  match m with
  | .sessionCreated => s
  | .sessionUpdated => s
  | .audioDelta f => processAudioQueue t { s with queue := s.queue ++ [f] }
  | .audioDeltaAbsent => s
  | .audioDone => s
  | .speechStarted => { s with conv := .listening }
  | .speechStopped => { s with conv := .thinking }
  | .transcriptDelta => s
  | .responseDone => s
  | .errorMsg => s
  | .unknownTag => s
  | .malformed => s

/-- Embedding of endCall (App.tsx 241-250): close and clear the socket
reference if one is held, then reset connection, conversation, queue and
playing flag. -/
def endCall (s : AppState) : AppState :=
  let s1 := if s.wsRef = true then { s with wsOpen := false, wsRef := false } else s
  { s1 with connection := .disconnected, conv := .idle, queue := [], playing := false }

/-- Run a timed sequence of inbound messages through the handler. -/
def runEvents (evs : List (ℚ × Msg)) (s : AppState) : AppState :=
  evs.foldl (fun st e => handleWebSocketMessage e.1 e.2 st) s

/-- Sample count carried by a message: the frame length of an audio delta,
and a neutral in-range value for every other message. -/
def msgFrames (m : Msg) : ℕ :=
  match m with
  | .audioDelta f => f
  | _ => 24

lemma playAudioChunk_eq (t : ℚ) (l : ℕ) (s : AppState) (hctx : s.hasCtx = true) :
    playAudioChunk t l s =
      { s with cursor := max t s.cursor + (l : ℚ) / 24000 - 1/1000,
               scheduled := s.scheduled ++ [(max t s.cursor, l)] } := by
  unfold playAudioChunk
  rw [if_neg (by simp [hctx])]

lemma playAudioChunk_playing (t : ℚ) (l : ℕ) (s : AppState) :
    (playAudioChunk t l s).playing = s.playing := by
  unfold playAudioChunk
  split <;> rfl

lemma playAudioChunk_hasCtx (t : ℚ) (l : ℕ) (s : AppState) :
    (playAudioChunk t l s).hasCtx = s.hasCtx := by
  unfold playAudioChunk
  split <;> rfl

lemma playAudioChunk_queue (t : ℚ) (l : ℕ) (s : AppState) :
    (playAudioChunk t l s).queue = s.queue := by
  unfold playAudioChunk
  split <;> rfl

lemma playAudioChunk_conv (t : ℚ) (l : ℕ) (s : AppState) :
    (playAudioChunk t l s).conv = s.conv := by
  unfold playAudioChunk
  split <;> rfl

lemma playAudioChunk_cursor_le (t : ℚ) (l : ℕ) (s : AppState) (h : 24 ≤ l) :
    s.cursor ≤ (playAudioChunk t l s).cursor := by
  unfold playAudioChunk
  split
  · exact le_refl _
  · show s.cursor ≤ max t s.cursor + (l : ℚ) / 24000 - 1/1000
    have h1 : s.cursor ≤ max t s.cursor := le_max_right _ _
    have h2 : (1 : ℚ)/1000 ≤ (l : ℚ) / 24000 := by
      rw [div_le_div_iff₀ (by norm_num) (by norm_num)]
      have h3 : (24 : ℚ) ≤ (l : ℚ) := by exact_mod_cast h
      linarith
    linarith

lemma drainList_playing (t : ℚ) (fs : List ℕ) :
    ∀ s : AppState, (drainList t fs s).playing = s.playing := by
  induction fs with
  | nil => intro s; rfl
  | cons f rest ih =>
    intro s
    simp only [drainList]
    rw [ih, playAudioChunk_playing]

lemma drainList_hasCtx (t : ℚ) (fs : List ℕ) :
    ∀ s : AppState, (drainList t fs s).hasCtx = s.hasCtx := by
  induction fs with
  | nil => intro s; rfl
  | cons f rest ih =>
    intro s
    simp only [drainList]
    rw [ih, playAudioChunk_hasCtx]

lemma drainList_queue (t : ℚ) (fs : List ℕ) :
    ∀ s : AppState, (drainList t fs s).queue = s.queue := by
  induction fs with
  | nil => intro s; rfl
  | cons f rest ih =>
    intro s
    simp only [drainList]
    rw [ih, playAudioChunk_queue]

lemma drainList_conv (t : ℚ) (fs : List ℕ) :
    ∀ s : AppState, (drainList t fs s).conv = s.conv := by
  induction fs with
  | nil => intro s; rfl
  | cons f rest ih =>
    intro s
    simp only [drainList]
    rw [ih, playAudioChunk_conv]

lemma drainList_cursor_le (t : ℚ) (fs : List ℕ) (h : ∀ f ∈ fs, 24 ≤ f) :
    ∀ s : AppState, s.cursor ≤ (drainList t fs s).cursor := by
  induction fs with
  | nil => intro s; exact le_refl _
  | cons f rest ih =>
    intro s
    simp only [drainList]
    have h1 := playAudioChunk_cursor_le t f s (h f (by simp))
    have h2 := ih (fun g hg => h g (by simp [hg])) (playAudioChunk t f s)
    exact le_trans h1 h2


lemma processAudioQueue_eq_playing (t : ℚ) (s : AppState) (hctx : s.hasCtx = true)
    (hq : s.queue ≠ []) (hp : s.playing = true) :
    processAudioQueue t s =
      (if 0 < (drainList t s.queue { s with queue := [] }).cursor - t then
        { drainList t s.queue { s with queue := [] } with
          timeouts := (drainList t s.queue { s with queue := [] }).timeouts
            ++ [t + ((drainList t s.queue { s with queue := [] }).cursor - t) + 1/10] }
      else drainList t s.queue { s with queue := [] }) := by
  unfold processAudioQueue
  rw [if_neg (by simp [hctx, hq])]
  simp only [hp, show ((true = false) = False) by simp, if_false]

lemma processAudioQueue_eq_notPlaying (t : ℚ) (s : AppState) (hctx : s.hasCtx = true)
    (hq : s.queue ≠ []) (hp : s.playing = false) :
    processAudioQueue t s =
      (if 0 < (drainList t s.queue
            { s with playing := true, conv := .speaking, cursor := t, queue := [] }).cursor - t then
        { drainList t s.queue
            { s with playing := true, conv := .speaking, cursor := t, queue := [] } with
          timeouts := (drainList t s.queue
              { s with playing := true, conv := .speaking, cursor := t, queue := [] }).timeouts
            ++ [t + ((drainList t s.queue
              { s with playing := true, conv := .speaking, cursor := t, queue := [] }).cursor - t) + 1/10] }
      else drainList t s.queue
        { s with playing := true, conv := .speaking, cursor := t, queue := [] }) := by
  unfold processAudioQueue
  rw [if_neg (by simp [hctx, hq])]
  simp only [hp, show ((false = false) = True) by simp, if_true]

lemma drainList_single (t : ℚ) (f : ℕ) (s : AppState) :
    drainList t [f] s = playAudioChunk t f s := rfl

lemma not_guard (s : AppState) (hc : ¬(s.hasCtx = false ∨ s.queue = [])) :
    s.hasCtx = true ∧ s.queue ≠ [] := by
  push_neg at hc
  exact ⟨by simpa using hc.1, hc.2⟩

lemma processAudioQueue_playing_true (t : ℚ) (s : AppState) (hp : s.playing = true) :
    (processAudioQueue t s).playing = true := by
  by_cases hc : s.hasCtx = false ∨ s.queue = []
  · unfold processAudioQueue
    rw [if_pos hc]
    exact hp
  · obtain ⟨h1, h2⟩ := not_guard s hc
    rw [processAudioQueue_eq_playing t s h1 h2 hp]
    split <;> simp [drainList_playing, hp]

lemma processAudioQueue_queue_cases (t : ℚ) (s : AppState) :
    (processAudioQueue t s).queue = s.queue ∨ (processAudioQueue t s).queue = [] := by
  by_cases hc : s.hasCtx = false ∨ s.queue = []
  · left
    unfold processAudioQueue
    rw [if_pos hc]
  · obtain ⟨h1, h2⟩ := not_guard s hc
    right
    cases hb : s.playing
    · rw [processAudioQueue_eq_notPlaying t s h1 h2 hb]
      split <;> simp [drainList_queue]
    · rw [processAudioQueue_eq_playing t s h1 h2 hb]
      split <;> simp [drainList_queue]

lemma processAudioQueue_cursor_le (t : ℚ) (s : AppState) (hp : s.playing = true)
    (hq : ∀ n ∈ s.queue, 24 ≤ n) : s.cursor ≤ (processAudioQueue t s).cursor := by
  by_cases hc : s.hasCtx = false ∨ s.queue = []
  · unfold processAudioQueue
    rw [if_pos hc]
  · obtain ⟨h1, h2⟩ := not_guard s hc
    rw [processAudioQueue_eq_playing t s h1 h2 hp]
    have hd := drainList_cursor_le t s.queue hq { s with queue := [] }
    split
    · simpa using hd
    · simpa using hd

lemma processAudioQueue_conv_speaking (t : ℚ) (s : AppState) (hctx : s.hasCtx = true)
    (hq : s.queue ≠ []) (hp : s.playing = false) :
    (processAudioQueue t s).conv = .speaking := by
  rw [processAudioQueue_eq_notPlaying t s hctx hq hp]
  split <;> simp [drainList_conv]

lemma processAudioQueue_conv_playing (t : ℚ) (s : AppState) (hp : s.playing = true) :
    (processAudioQueue t s).conv = s.conv := by
  by_cases hc : s.hasCtx = false ∨ s.queue = []
  · unfold processAudioQueue
    rw [if_pos hc]
  · obtain ⟨h1, h2⟩ := not_guard s hc
    rw [processAudioQueue_eq_playing t s h1 h2 hp]
    split <;> simp [drainList_conv]

lemma processAudioQueue_single (t : ℚ) (f : ℕ) (s : AppState) (hctx : s.hasCtx = true)
    (hp : s.playing = true) (hq : s.queue = [f]) :
    (processAudioQueue t s).scheduled = s.scheduled ++ [(max t s.cursor, f)] ∧
      (processAudioQueue t s).cursor = max t s.cursor + (f : ℚ) / 24000 - 1/1000 := by
  have h2 : s.queue ≠ [] := by
    rw [hq]
    simp
  rw [processAudioQueue_eq_playing t s hctx h2 hp, hq, drainList_single,
    playAudioChunk_eq t f { s with queue := [] } hctx]
  constructor
  · split <;> simp
  · split <;> simp

lemma handleWSM_playing_true (t : ℚ) (m : Msg) (s : AppState) (hp : s.playing = true) :
    (handleWebSocketMessage t m s).playing = true := by
  cases m <;> simp only [handleWebSocketMessage] <;> try exact hp
  exact processAudioQueue_playing_true t _ hp

lemma handleWSM_queueMin (t : ℚ) (m : Msg) (s : AppState)
    (hq : ∀ n ∈ s.queue, 24 ≤ n) (hm : 24 ≤ msgFrames m) :
    ∀ n ∈ (handleWebSocketMessage t m s).queue, 24 ≤ n := by
  cases m <;> simp only [handleWebSocketMessage] <;> try exact hq
  rename_i f
  rcases processAudioQueue_queue_cases t { s with queue := s.queue ++ [f] } with h | h <;> rw [h]
  · intro n hn
    rcases List.mem_append.mp hn with h1 | h1
    · exact hq n h1
    · have hf : n = f := by simpa using h1
      subst hf
      exact hm
  · intro n hn
    simp at hn

lemma handleWSM_cursor_le (t : ℚ) (m : Msg) (s : AppState) (hp : s.playing = true)
    (hq : ∀ n ∈ s.queue, 24 ≤ n) (hm : 24 ≤ msgFrames m) :
    s.cursor ≤ (handleWebSocketMessage t m s).cursor := by
  cases m <;> simp only [handleWebSocketMessage] <;> try exact le_refl _
  rename_i f
  refine processAudioQueue_cursor_le t { s with queue := s.queue ++ [f] } hp ?_
  intro n hn
  rcases List.mem_append.mp hn with h1 | h1
  · exact hq n h1
  · have hf : n = f := by simpa using h1
    subst hf
    exact hm

lemma runEvents_cursor_le (evs : List (ℚ × Msg)) :
    ∀ s : AppState, s.playing = true → (∀ n ∈ s.queue, 24 ≤ n) →
      (∀ e ∈ evs, 24 ≤ msgFrames e.2) → s.cursor ≤ (runEvents evs s).cursor := by
  induction evs with
  | nil =>
    intro s _ _ _
    exact le_refl _
  | cons e rest ih =>
    intro s hp hq he
    have hme : 24 ≤ msgFrames e.2 := he e (by simp)
    have h1 : s.cursor ≤ (handleWebSocketMessage e.1 e.2 s).cursor :=
      handleWSM_cursor_le e.1 e.2 s hp hq hme
    have h2 := ih (handleWebSocketMessage e.1 e.2 s)
      (handleWSM_playing_true e.1 e.2 s hp)
      (handleWSM_queueMin e.1 e.2 s hq hme)
      (fun x hx => he x (by simp [hx]))
    simp only [runEvents, List.foldl_cons] at h2 ⊢
    exact le_trans h1 h2

/-- Client state after initAudioContext and a first 1-second (24000-sample)
audio delta at device time 0: playing, queue drained, cursor at 999/1000. -/
def demoBurst : AppState :=
  handleWebSocketMessage 0 (.audioDelta 24000) (initAudioContext initApp)

/-- C1 (amended): when a second frame is scheduled while the device clock has
not passed the play cursor left by the first frame, the second frame starts
exactly at firstStart + firstDuration - 1/1000 (the 1 ms overlap), and this is
never earlier than firstStart provided the first frame is at least 24 samples
long (1 ms at 24 kHz, the duration of the overlap); for shorter first frames
the second start time falls strictly before the first. -/
theorem gaplessScheduling (s : AppState) (t1 t2 : ℚ) (l1 l2 : ℕ)
    (hctx : s.hasCtx = true)
    (h2 : t2 ≤ (playAudioChunk t1 l1 s).cursor) :
    (playAudioChunk t2 l2 (playAudioChunk t1 l1 s)).scheduled =
      s.scheduled ++ [(max t1 s.cursor, l1),
        (max t1 s.cursor + (l1 : ℚ) / 24000 - 1/1000, l2)] ∧
    (24 ≤ l1 → max t1 s.cursor ≤ max t1 s.cursor + (l1 : ℚ) / 24000 - 1/1000) := by
  have hc1 := playAudioChunk_eq t1 l1 s hctx
  have hctx1 : (playAudioChunk t1 l1 s).hasCtx = true := by
    rw [hc1]
    exact hctx
  have hcur1 : (playAudioChunk t1 l1 s).cursor = max t1 s.cursor + (l1 : ℚ)/24000 - 1/1000 := by
    rw [hc1]
  constructor
  · rw [playAudioChunk_eq t2 l2 _ hctx1, hc1]
    have h2' : t2 ≤ max t1 s.cursor + (l1 : ℚ)/24000 - 1/1000 := by
      rw [← hcur1]
      exact h2
    simp [max_eq_right h2']
    linarith [h2']
  · intro h
    have h3 : (24 : ℚ) ≤ (l1 : ℚ) := by exact_mod_cast h
    have h4 : (1 : ℚ)/1000 ≤ (l1 : ℚ)/24000 := by
      rw [div_le_div_iff₀ (by norm_num) (by norm_num)]
      linarith
    linarith

/-- Witness for C1: two 4096-sample frames at device time 0 starting from the
fresh state; the second is scheduled at 4096/24000 - 1/1000 seconds. -/
theorem gaplessScheduling_witness :
    ((0 : ℚ) ≤ (playAudioChunk 0 4096 (initAudioContext initApp)).cursor) ∧
      (playAudioChunk 0 4096 (playAudioChunk 0 4096 (initAudioContext initApp))).scheduled =
        [((0 : ℚ), 4096), ((4096 : ℚ)/24000 - 1/1000, 4096)] := by
  have hh : (0 : ℚ) ≤ (playAudioChunk 0 4096 (initAudioContext initApp)).cursor := by
    norm_num [playAudioChunk, initAudioContext, initApp]
  refine ⟨hh, ?_⟩
  have H := (gaplessScheduling (initAudioContext initApp) 0 0 4096 4096 rfl hh).1
  rw [H]
  norm_num [initAudioContext, initApp]

/-- Counterexample to C1 as stated: in a burst begun by a 1-second frame, a
12-sample frame is scheduled at 999/1000, and the frame after it - scheduled
while the clock (still 0) has not passed the play cursor - starts at
1997/2000, strictly earlier than 999/1000. -/
theorem gaplessScheduling_counterexample :
    ((0 : ℚ) ≤ (handleWebSocketMessage 0 (.audioDelta 12) demoBurst).cursor) ∧
      (handleWebSocketMessage 0 (.audioDelta 240)
          (handleWebSocketMessage 0 (.audioDelta 12) demoBurst)).scheduled =
        [((0 : ℚ), 24000), (999/1000, 12), (1997/2000, 240)] ∧
      (1997/2000 : ℚ) < 999/1000 := by
  norm_num [demoBurst, initApp, initAudioContext, handleWebSocketMessage,
    processAudioQueue, drainList, playAudioChunk, timeoutCheck]

/-- C2 (amended): across any sequence of messages processed while a playback
burst is active (playing flag set), the play cursor never decreases provided
every frame is at least 24 samples long (1 ms, the overlap constant); the
playing flag is cleared (allowing the cursor reset at the start of the next
burst) only by the deferred completion check, and only when the queue has
fully drained. Frames shorter than 24 samples make the cursor decrease. -/
theorem playCursorMonotone (s : AppState) (evs : List (ℚ × Msg))
    (hp : s.playing = true)
    (hq : ∀ n ∈ s.queue, 24 ≤ n)
    (he : ∀ e ∈ evs, 24 ≤ msgFrames e.2) :
    s.cursor ≤ (runEvents evs s).cursor ∧
      ∀ u : AppState, u.queue ≠ [] → timeoutCheck u = u := by
  refine ⟨runEvents_cursor_le evs s hp hq he, ?_⟩
  intro u hu
  unfold timeoutCheck
  rw [if_neg hu]

/-- Witness for C2: a 2400-sample delta arriving mid-burst does not move the
cursor backwards. -/
theorem playCursorMonotone_witness :
    (demoBurst.playing = true ∧ (∀ n ∈ demoBurst.queue, 24 ≤ n) ∧
      (∀ e ∈ [((0 : ℚ), Msg.audioDelta 2400)], 24 ≤ msgFrames e.2)) ∧
      demoBurst.cursor ≤ (runEvents [((0 : ℚ), Msg.audioDelta 2400)] demoBurst).cursor := by
  have h1 : demoBurst.playing = true := by
    norm_num [demoBurst, initApp, initAudioContext, handleWebSocketMessage,
      processAudioQueue, drainList, playAudioChunk]
  have h2 : ∀ n ∈ demoBurst.queue, 24 ≤ n := by
    norm_num [demoBurst, initApp, initAudioContext, handleWebSocketMessage,
      processAudioQueue, drainList, playAudioChunk]
  have h3 : ∀ e ∈ [((0 : ℚ), Msg.audioDelta 2400)], 24 ≤ msgFrames e.2 := by
    simp [msgFrames]
  exact ⟨⟨h1, h2, h3⟩, (playCursorMonotone demoBurst _ h1 h2 h3).1⟩

/-- Counterexample to C2 as stated: a 12-sample frame scheduled inside an
active burst moves the play cursor from 999/1000 down to 1997/2000. -/
theorem playCursorMonotone_counterexample :
    demoBurst.playing = true ∧
      (handleWebSocketMessage 0 (.audioDelta 12) demoBurst).cursor < demoBurst.cursor := by
  norm_num [demoBurst, initApp, initAudioContext, handleWebSocketMessage,
    processAudioQueue, drainList, playAudioChunk]

lemma processAudioQueue_conv_eq (t : ℚ) (s : AppState) :
    (processAudioQueue t s).conv =
      if s.hasCtx = true ∧ s.queue ≠ [] ∧ s.playing = false then .speaking else s.conv := by
  by_cases hc : s.hasCtx = false ∨ s.queue = []
  · unfold processAudioQueue
    rw [if_pos hc, if_neg]
    rintro ⟨h1, h2, -⟩
    rcases hc with hc | hc
    · rw [h1] at hc
      cases hc
    · exact h2 hc
  · obtain ⟨h1, h2⟩ := not_guard s hc
    cases hb : s.playing
    · rw [processAudioQueue_conv_speaking t s h1 h2 hb, if_pos ⟨h1, h2, rfl⟩]
    · rw [processAudioQueue_conv_playing t s hb, if_neg]
      rintro ⟨-, -, h3⟩
      cases h3

/-- C5: the turn-state mapping of the message handler: speech_started yields
listening, speech_stopped yields thinking, the first audio chunk of a burst
(playing flag still clear) yields speaking, and the deferred queue-drained
check yields idle; the state produced by a message does not depend on the
device time at which it is processed (only on event type and arrival order);
and speech_started followed by speech_stopped with no audio in between yields
the state sequence listening, thinking. -/
theorem turnStateMapping (s : AppState) (t : ℚ) (f : ℕ)
    (hctx : s.hasCtx = true) (hp : s.playing = false) :
    (handleWebSocketMessage t .speechStarted s).conv = .listening ∧
    (handleWebSocketMessage t .speechStopped s).conv = .thinking ∧
    (handleWebSocketMessage t (.audioDelta f) s).conv = .speaking ∧
    (∀ u : AppState, u.queue = [] →
      (timeoutCheck u).conv = .idle ∧ (timeoutCheck u).playing = false) ∧
    (∀ (t1 t2 : ℚ) (m : Msg) (u : AppState),
      (handleWebSocketMessage t1 m u).conv = (handleWebSocketMessage t2 m u).conv) ∧
    ((handleWebSocketMessage t .speechStarted s).conv = .listening ∧
      (handleWebSocketMessage t .speechStopped
        (handleWebSocketMessage t .speechStarted s)).conv = .thinking) := by
  refine ⟨rfl, rfl, ?_, ?_, ?_, rfl, rfl⟩
  · show (processAudioQueue t { s with queue := s.queue ++ [f] }).conv = .speaking
    exact processAudioQueue_conv_speaking t _ hctx (by simp) hp
  · intro u hu
    unfold timeoutCheck
    rw [if_pos hu]
    exact ⟨rfl, rfl⟩
  · intro t1 t2 m u
    cases m <;> simp only [handleWebSocketMessage]
    rw [processAudioQueue_conv_eq, processAudioQueue_conv_eq]

/-- Witness for C5 at the fresh client state, device time 0, a 4096-sample
frame. -/
theorem turnStateMapping_witness :
    ((initAudioContext initApp).hasCtx = true ∧ (initAudioContext initApp).playing = false) ∧
      (handleWebSocketMessage 0 .speechStarted (initAudioContext initApp)).conv = .listening ∧
      (handleWebSocketMessage 0 .speechStopped (initAudioContext initApp)).conv = .thinking ∧
      (handleWebSocketMessage 0 (.audioDelta 4096) (initAudioContext initApp)).conv = .speaking := by
  have H := turnStateMapping (initAudioContext initApp) 0 4096 rfl rfl
  exact ⟨⟨rfl, rfl⟩, H.1, H.2.1, H.2.2.1⟩

/-- C6 (amended): a speech_started event received while the scheduler is
active changes only the conversation state (to listening): the queue, play
cursor, playing flag and already-scheduled frames are untouched, and the next
frame received afterwards is scheduled at max(deviceTime, old play cursor) -
the play cursor is not reset to the device time and no queued or scheduled
audio is discarded. -/
theorem bargeIn (s : AppState) (t t2 : ℚ) (f : ℕ)
    (hq : s.queue = []) (hp : s.playing = true) (hctx : s.hasCtx = true) :
    handleWebSocketMessage t .speechStarted s = { s with conv := .listening } ∧
    (handleWebSocketMessage t2 (.audioDelta f)
        (handleWebSocketMessage t .speechStarted s)).scheduled
      = s.scheduled ++ [(max t2 s.cursor, f)] := by
  refine ⟨rfl, ?_⟩
  have H := (processAudioQueue_single t2 f
    { s with conv := .listening, queue := s.queue ++ [f] } hctx hp (by simp [hq])).1
  simpa using H

/-- Witness for C6: barge-in at 1/10 s into the demo burst followed by a
2400-sample frame at 1/5 s; the frame is scheduled at the old cursor
999/1000. -/
theorem bargeIn_witness :
    (demoBurst.queue = [] ∧ demoBurst.playing = true ∧ demoBurst.hasCtx = true) ∧
      handleWebSocketMessage (1/10) .speechStarted demoBurst
        = { demoBurst with conv := .listening } ∧
      (handleWebSocketMessage (1/5) (.audioDelta 2400)
          (handleWebSocketMessage (1/10) .speechStarted demoBurst)).scheduled
        = demoBurst.scheduled ++ [(max (1/5) demoBurst.cursor, 2400)] := by
  have h1 : demoBurst.queue = [] := by
    norm_num [demoBurst, initApp, initAudioContext, handleWebSocketMessage,
      processAudioQueue, drainList, playAudioChunk]
  have h2 : demoBurst.playing = true := by
    norm_num [demoBurst, initApp, initAudioContext, handleWebSocketMessage,
      processAudioQueue, drainList, playAudioChunk]
  have h3 : demoBurst.hasCtx = true := by
    norm_num [demoBurst, initApp, initAudioContext, handleWebSocketMessage,
      processAudioQueue, drainList, playAudioChunk]
  have H := bargeIn demoBurst (1/10) (1/5) 2400 h1 h2 h3
  exact ⟨⟨h1, h2, h3⟩, H.1, H.2⟩

/-- Counterexample to C6 as stated: after speech_started arrives at 1/10 s
during active playback (cursor 999/1000), the next frame (at device time
1/5 s) is scheduled at the old play cursor 999/1000, not at the device time
1/5: the play cursor was not reset and the previously scheduled second of
audio is not discarded. -/
theorem bargeIn_counterexample :
    demoBurst.playing = true ∧
      (handleWebSocketMessage (1/10) .speechStarted demoBurst).cursor = demoBurst.cursor ∧
      (handleWebSocketMessage (1/10) .speechStarted demoBurst).queue = demoBurst.queue ∧
      (handleWebSocketMessage (1/5) (.audioDelta 2400)
          (handleWebSocketMessage (1/10) .speechStarted demoBurst)).scheduled
        = [((0 : ℚ), 24000), (999/1000, 2400)] ∧
      ¬((999/1000 : ℚ) = 1/5) := by
  norm_num [demoBurst, initApp, initAudioContext, handleWebSocketMessage,
    processAudioQueue, drainList, playAudioChunk]

/-- C7 (code-bug evaluation): two one-second frames arrive at device times 0
and 1/2; the completion check scheduled by the first burst call fires at
1099/1000, finds the queue empty, and declares completion (idle, playing flag
cleared) even though the play cursor is 1998/1000, i.e. while scheduled audio
is still playing - contradicting the claim (and the code's own comment that
the check detects when "all audio finishes"). -/
theorem completionRace :
    (handleWebSocketMessage (1/2) (.audioDelta 24000) demoBurst).timeouts
        = [(1099/1000 : ℚ), 2098/1000] ∧
      (timeoutCheck (handleWebSocketMessage (1/2) (.audioDelta 24000) demoBurst)).playing = false ∧
      (timeoutCheck (handleWebSocketMessage (1/2) (.audioDelta 24000) demoBurst)).conv
        = ConversationState.idle ∧
      (1099/1000 : ℚ) < (handleWebSocketMessage (1/2) (.audioDelta 24000) demoBurst).cursor := by
  norm_num [demoBurst, initApp, initAudioContext, handleWebSocketMessage,
    processAudioQueue, drainList, playAudioChunk, timeoutCheck]

/-- C8: after endCall the playback queue is empty, the connection state is
disconnected, the conversation state is idle, the socket reference is cleared
(and the socket closed, given the invariant that an open socket is always
referenced), playback is stopped, and processAudioQueue is a no-op on the
resulting state, so no further frame is ever scheduled. -/
theorem endCallTeardown (s : AppState) (hws : s.wsOpen = true → s.wsRef = true) :
    (endCall s).queue = [] ∧ (endCall s).connection = .disconnected ∧
    (endCall s).conv = .idle ∧ (endCall s).wsRef = false ∧ (endCall s).wsOpen = false ∧
    (endCall s).playing = false ∧
    (∀ t : ℚ, processAudioQueue t (endCall s) = endCall s) := by
  cases hr : s.wsRef
  · have hend : endCall s =
        { s with connection := .disconnected, conv := .idle, queue := [], playing := false } := by
      unfold endCall
      rw [if_neg (by simp [hr])]
    have ho : s.wsOpen = false := by
      cases hw : s.wsOpen
      · rfl
      · rw [hws hw] at hr
        cases hr
    rw [hend]
    refine ⟨rfl, rfl, rfl, hr, ho, rfl, ?_⟩
    intro t
    unfold processAudioQueue
    rw [if_pos (Or.inr rfl)]
  · have hend : endCall s =
        { s with wsOpen := false, wsRef := false, connection := .disconnected,
                 conv := .idle, queue := [], playing := false } := by
      unfold endCall
      rw [if_pos hr]
    rw [hend]
    refine ⟨rfl, rfl, rfl, rfl, rfl, rfl, ?_⟩
    intro t
    unfold processAudioQueue
    rw [if_pos (Or.inr rfl)]

/-- Mid-call client state used by the C8 witness: connected, speaking, one
queued frame, open referenced socket. -/
def demoMidCall : AppState :=
  { initApp with wsRef := true, wsOpen := true, hasCtx := true,
                 connection := .connected, conv := .speaking, queue := [4096],
                 playing := true }

/-- Witness for C8: teardown of the mid-call state, with the no-op conjunct
instantiated at device time 5. -/
theorem endCallTeardown_witness :
    (demoMidCall.wsOpen = true → demoMidCall.wsRef = true) ∧
    (endCall demoMidCall).queue = [] ∧
    (endCall demoMidCall).connection = .disconnected ∧
    (endCall demoMidCall).conv = .idle ∧
    (endCall demoMidCall).wsRef = false ∧
    (endCall demoMidCall).wsOpen = false ∧
    (endCall demoMidCall).playing = false ∧
    processAudioQueue 5 (endCall demoMidCall) = endCall demoMidCall := by
  have H := endCallTeardown demoMidCall (fun _ => rfl)
  exact ⟨fun _ => rfl, H.1, H.2.1, H.2.2.1, H.2.2.2.1, H.2.2.2.2.1, H.2.2.2.2.2.1,
    H.2.2.2.2.2.2 5⟩

/-- C10: a message whose JSON parse fails, or whose type tag matches no
handled case, leaves the whole client state - in particular the conversation
state, the audio queue, the play cursor and the playing flag - unchanged. -/
theorem malformedContainment (s : AppState) (t : ℚ) :
    handleWebSocketMessage t .malformed s = s ∧
      handleWebSocketMessage t .unknownTag s = s :=
  ⟨rfl, rfl⟩
